import Mathlib

/-!
Shallow embedding of the keyboard driver core of the `flower` kernel
(`src/kernel/src/drivers/keyboard/mod.rs`): modifier and lock-state flag
types, the keycode translation step, the character-resolution engine, and
the stateful PS/2 event synthesizer, together with theorems checking the
design documentation against this code.
-/

namespace Flower

/-- Raw PS/2 scancode as delivered by the controller collaborator:
raw byte, extended-space flag, and make (press) flag.
Mirrors `ps2::device::keyboard::Scancode`. -/
structure Scancode where
  code : Nat
  extended : Bool
  make : Bool
deriving DecidableEq, Repr

/-- Transient modifier flags: a `bitflags` wrapper over a byte
with `SHIFT = 1 << 0`, `NUM_LOCK = 1 << 1`, `CAPS_LOCK = 1 << 2`. -/
structure ModifierFlags where
  bits : Nat
deriving DecidableEq, Repr

def ModifierFlags.SHIFT : ModifierFlags := ⟨1⟩

def ModifierFlags.NUM_LOCK : ModifierFlags := ⟨2⟩

def ModifierFlags.CAPS_LOCK : ModifierFlags := ⟨4⟩

def ModifierFlags.empty : ModifierFlags := ⟨0⟩

/-- bitflags `contains`: every bit of `c` is set in `f`. -/
def ModifierFlags.contains (f c : ModifierFlags) : Bool :=
  f.bits &&& c.bits == c.bits

/-- bitflags `set`: insert the flag bits when `value` is true, remove them
otherwise (removal masks with the 8-bit complement of the flag bits). -/
def ModifierFlags.set (f c : ModifierFlags) (value : Bool) : ModifierFlags :=
  if value then ⟨f.bits ||| c.bits⟩ else ⟨f.bits &&& (255 ^^^ c.bits)⟩

/-- `ModifierFlags::from_modifiers`: build the flags from the three booleans
by three successive `set` calls on the empty flag set. -/
def ModifierFlags.from_modifiers (shift num_lock caps_lock : Bool) : ModifierFlags :=
  ((ModifierFlags.empty.set ModifierFlags.SHIFT shift).set
      ModifierFlags.NUM_LOCK num_lock).set ModifierFlags.CAPS_LOCK caps_lock

/-- Persistent keyboard lock states: a `bitflags` wrapper over a byte with
`NUM_LOCK = 1 << 0`, `SCROLL_LOCK = 1 << 1`, `CAPS_LOCK = 1 << 2`,
`FUNCTION_LOCK = 1 << 3`. -/
structure StateFlags where
  bits : Nat
deriving DecidableEq, Repr

def StateFlags.NUM_LOCK : StateFlags := ⟨1⟩

def StateFlags.SCROLL_LOCK : StateFlags := ⟨2⟩

def StateFlags.CAPS_LOCK : StateFlags := ⟨4⟩

def StateFlags.FUNCTION_LOCK : StateFlags := ⟨8⟩

def StateFlags.empty : StateFlags := ⟨0⟩

/-- bitflags `contains` for `StateFlags`. -/
def StateFlags.contains (f c : StateFlags) : Bool :=
  f.bits &&& c.bits == c.bits

/-- bitflags `toggle`: flip the flag bits (bitwise xor). -/
def StateFlags.toggle (f c : StateFlags) : StateFlags :=
  ⟨f.bits ^^^ c.bits⟩

/-- Mapping from a keycode into a character (`KeyCharMapping`). -/
inductive KeyCharMapping where
  | Empty : KeyCharMapping
  | Single : Char → KeyCharMapping
  | Shifted : Char → Char → KeyCharMapping
  | Capitalized : Char → Char → KeyCharMapping
  | NumLocked : Char → KeyCharMapping
deriving DecidableEq, Repr

/-- `KeyCharMapping::char`: resolve the optional character for this mapping
under the given modifier snapshot. -/
def KeyCharMapping.char (m : KeyCharMapping) (modifiers : ModifierFlags) : Option Char :=
  match m with
  | .Single character => some character
  | .Shifted character shifted =>
      if modifiers.contains ModifierFlags.SHIFT then some shifted else some character
  | .Capitalized character capital =>
      if xor (modifiers.contains ModifierFlags.CAPS_LOCK)
          (modifiers.contains ModifierFlags.SHIFT) then
        some capital
      else
        some character
  | .NumLocked character =>
      if !modifiers.contains ModifierFlags.NUM_LOCK then some character else none
  | .Empty => none

/-- The type of key event that occurred (`KeyEventType`). -/
inductive KeyEventType where
  | Make : KeyEventType
  | Break : KeyEventType
  | Repeat : KeyEventType
deriving DecidableEq, Repr

/-- Data of a key press event (`KeyEvent`); `keycode` is the driver's dense
byte identifier (`pub type Keycode = u8`). -/
structure KeyEvent where
  keycode : Nat
  char : Option Char
  event_type : KeyEventType
  modifiers : ModifierFlags
deriving DecidableEq, Repr

/-- Failure outcome of keycode translation (`UnknownScancode`), carrying the
raw byte and which scancode space it came from. -/
inductive UnknownScancode where
  | UnknownPlainScancode : Nat → UnknownScancode
  | UnknownExtendedScancode : Nat → UnknownScancode
deriving DecidableEq, Repr

/-- Modelled from the spec: the repository's `keymap` module (the static
lookup tables `get_code_ps2_set_2` and `get_extended_code_ps2_set_2`, the
per-keycode character table `get_us_qwerty_char`, and the named keycodes in
`keymap::codes`) is not among the provided source files; per the design
document it is pure static data mapping the plain and extended scancode
spaces onto the dense keycode byte space, plus a character mapping per
keycode. It is embedded as a bundle of lookup functions and named keycode
constants, over which the theorems quantify. -/
structure Keymap where
  get_code_ps2_set_2 : Nat → Option Nat
  get_extended_code_ps2_set_2 : Nat → Option Nat
  get_us_qwerty_char : Nat → KeyCharMapping
  LEFT_SHIFT : Nat
  RIGHT_SHIFT : Nat
  SCROLL_LOCK : Nat
  NUM_LOCK : Nat
  CAPS_LOCK : Nat
  ESCAPE : Nat
  FUNCTION : Nat

/-- `TryFrom<Scancode> for Keycode`: select the plain or extended table by
the scancode's extended flag; a miss is reported as the unknown-scancode
variant for that space, carrying the raw byte. -/
def keycode_try_from (km : Keymap) (scancode : Scancode) : Except UnknownScancode Nat :=
  let converted :=
    if !scancode.extended then km.get_code_ps2_set_2 scancode.code
    else km.get_extended_code_ps2_set_2 scancode.code
  match converted, scancode.extended with
  | some keycode, _ => Except.ok keycode
  | none, false => Except.error (UnknownScancode.UnknownPlainScancode scancode.code)
  | none, true => Except.error (UnknownScancode.UnknownExtendedScancode scancode.code)

/-- `const KEY_STATE_LENGTH: usize = 0xFF / 8;` (integer division). -/
def KEY_STATE_LENGTH : Nat := 0xFF / 8

/-- The PS/2 keyboard session state: the pressed-key bit map (an array of
`KEY_STATE_LENGTH` bytes) and the persistent lock-state flags. -/
structure Ps2Keyboard where
  key_state_map : List Nat
  state : StateFlags
deriving DecidableEq, Repr

/-- `Ps2Keyboard::new()`: zeroed key-state map, empty state flags. -/
def Ps2Keyboard.new : Ps2Keyboard :=
  { key_state_map := List.replicate KEY_STATE_LENGTH 0, state := StateFlags.empty }

/-- `Ps2Keyboard::pressed`: read the keycode's bit from the key-state map;
an out-of-range bucket read falls back to `0` (`get(..).unwrap_or(&0)`). -/
def Ps2Keyboard.pressed (kb : Ps2Keyboard) (keycode : Nat) : Bool :=
  let index := keycode
  let bucket := (kb.key_state_map[index / 8]?).getD 0
  let bit_index := index % 8
  (bucket >>> bit_index) &&& 1 != 0

def Ps2Keyboard.num_lock (kb : Ps2Keyboard) : Bool :=
  kb.state.contains StateFlags.NUM_LOCK

def Ps2Keyboard.scroll_lock (kb : Ps2Keyboard) : Bool :=
  kb.state.contains StateFlags.SCROLL_LOCK

def Ps2Keyboard.caps_lock (kb : Ps2Keyboard) : Bool :=
  kb.state.contains StateFlags.CAPS_LOCK

def Ps2Keyboard.function_lock (kb : Ps2Keyboard) : Bool :=
  kb.state.contains StateFlags.FUNCTION_LOCK

/-- `Ps2Keyboard::create_event`: compute the modifier snapshot from the
current state, translate the scancode, resolve the character, and classify
the event type from the scancode's make flag and the current pressed bit. -/
def Ps2Keyboard.create_event (kb : Ps2Keyboard) (km : Keymap) (scancode : Scancode) :
    Option KeyEvent :=
  let shift := kb.pressed km.LEFT_SHIFT || kb.pressed km.RIGHT_SHIFT
  let num_lock := kb.state.contains StateFlags.NUM_LOCK
  let caps_lock := kb.state.contains StateFlags.CAPS_LOCK
  let modifiers := ModifierFlags.from_modifiers shift num_lock caps_lock
  match keycode_try_from km scancode with
  | Except.ok keycode =>
      let char := (km.get_us_qwerty_char keycode).char modifiers
      let event_type :=
        if scancode.make then
          if kb.pressed keycode then KeyEventType.Repeat else KeyEventType.Make
        else KeyEventType.Break
      some { keycode := keycode, char := char, event_type := event_type,
             modifiers := modifiers }
  | Except.error _ => none

/-- `Ps2Keyboard::handle_state`: on a Make event only, toggle the lock flag
matching the keycode; the match arms are tried in source order
(SCROLL_LOCK, NUM_LOCK, CAPS_LOCK, then ESCAPE guarded by FUNCTION held). -/
def Ps2Keyboard.handle_state (kb : Ps2Keyboard) (km : Keymap) (event : KeyEvent) :
    Ps2Keyboard :=
  if event.event_type = KeyEventType.Make then
    if event.keycode = km.SCROLL_LOCK then
      { kb with state := kb.state.toggle StateFlags.SCROLL_LOCK }
    else if event.keycode = km.NUM_LOCK then
      { kb with state := kb.state.toggle StateFlags.NUM_LOCK }
    else if event.keycode = km.CAPS_LOCK then
      { kb with state := kb.state.toggle StateFlags.CAPS_LOCK }
    else if event.keycode = km.ESCAPE ∧ kb.pressed km.FUNCTION then
      { kb with state := kb.state.toggle StateFlags.FUNCTION_LOCK }
    else kb
  else kb

/-- One scancode-consuming step of `Ps2Keyboard::read_event` (the closure run
when the controller yields a scancode). Returns the new session state, the
optional emitted event, and the value passed to `set_port_dirty` (`false`
when no dirty signal is sent). `none` models a Rust panic: the pressed-bit
write `self.key_state_map[bucket_index] |= bit` indexes the array without a
fallback, so an out-of-range bucket is a crash. -/
def Ps2Keyboard.consume (kb : Ps2Keyboard) (km : Keymap) (scancode : Scancode) :
    Option (Ps2Keyboard × Option KeyEvent × Bool) :=
  match kb.create_event km scancode with
  | some event =>
      let kb1 := kb.handle_state km event
      let index := event.keycode
      let bit := 1 <<< (index % 8)
      let bucket_index := index / 8
      if bucket_index < kb1.key_state_map.length then
        let bucket := (kb1.key_state_map[bucket_index]?).getD 0
        let newBucket := if scancode.make then bucket ||| bit else bucket &&& (255 ^^^ bit)
        some ({ kb1 with key_state_map := kb1.key_state_map.set bucket_index newBucket },
              some event, false)
      else none
  | none => some (kb, none, true)

/-- Run a list of scancodes through the session, failing if any step panics. -/
def Ps2Keyboard.runSeq (kb : Ps2Keyboard) (km : Keymap) : List Scancode → Option Ps2Keyboard
  | [] => some kb
  | scancode :: rest =>
      match kb.consume km scancode with
      | some (kb1, _, _) => kb1.runSeq km rest
      | none => none

instance instDecEqExcept {ε α : Type} [DecidableEq ε] [DecidableEq α] :
    DecidableEq (Except ε α)
  | .ok a, .ok b => decidable_of_iff (a = b) (by simp)
  | .ok _, .error _ => isFalse (by simp)
  | .error _, .ok _ => isFalse (by simp)
  | .error e, .error f => decidable_of_iff (e = f) (by simp)

/-- The make flag of the most recent scancode in the list that translates to
keycode `K` (later elements take priority), if any. -/
def lastMake (km : Keymap) (K : Nat) : List Scancode → Option Bool
  | [] => none
  | scancode :: rest =>
      match lastMake km K rest with
      | some b => some b
      | none =>
          if keycode_try_from km scancode = Except.ok K then some scancode.make else none

/-- Modelled from the spec: a small concrete keymap instance used to
evaluate the theorems on concrete inputs. Scancode assignments follow the
design document's scanset-2 examples (0x15 ↦ Q; lock keys, shift keys,
Escape and Function are given distinct keycodes below 248). -/
def exKeymap : Keymap where
  get_code_ps2_set_2 := fun c =>
    if c = 0x15 then some 20
    else if c = 0x12 then some 50
    else if c = 0x59 then some 51
    else if c = 0x7E then some 60
    else if c = 0x77 then some 61
    else if c = 0x58 then some 62
    else if c = 0x76 then some 1
    else if c = 0x0F then some 63
    else if c = 0x6C then some 70
    else none
  get_extended_code_ps2_set_2 := fun c =>
    if c = 0x6B then some 80 else none
  get_us_qwerty_char := fun k =>
    if k = 20 then KeyCharMapping.Capitalized 'q' 'Q'
    else if k = 70 then KeyCharMapping.NumLocked '7'
    else KeyCharMapping.Empty
  LEFT_SHIFT := 50
  RIGHT_SHIFT := 51
  SCROLL_LOCK := 60
  NUM_LOCK := 61
  CAPS_LOCK := 62
  ESCAPE := 1
  FUNCTION := 63

/-- Modelled from the spec: a keymap whose plain table maps byte 0 to
keycode 248 — inside the keycode space 0–254 that the design document
declares in use, but past the last bit of the 31-byte key-state array. -/
def wideKeymap : Keymap :=
  { exKeymap with get_code_ps2_set_2 := fun c => if c = 0 then some 248 else none }

/-- The event produced by `exKeymap` for a make of scancode 0x15 (Q) from the
fresh session state. -/
def exQEvent : KeyEvent :=
  { keycode := 20, char := some 'q', event_type := KeyEventType.Make, modifiers := ⟨0⟩ }

/-- The session state after a make of Q (keycode 20) from the fresh state. -/
def exAfterQ : Ps2Keyboard :=
  { key_state_map := (List.replicate KEY_STATE_LENGTH 0).set 2 16, state := ⟨0⟩ }

/-- The event produced by `exKeymap` for a make of scancode 0x58 (caps lock)
from the fresh session state. -/
def exCapsEvent : KeyEvent :=
  { keycode := 62, char := none, event_type := KeyEventType.Make, modifiers := ⟨0⟩ }

/-- The session state after a make of caps lock (keycode 62) from the fresh
state: bit 62 set, caps-lock flag toggled on. -/
def exAfterCaps : Ps2Keyboard :=
  { key_state_map := (List.replicate KEY_STATE_LENGTH 0).set 7 64, state := ⟨4⟩ }

/-- The event produced by `exKeymap` for a make of scancode 0x12 (left shift)
from the fresh session state. -/
def exShiftEvent : KeyEvent :=
  { keycode := 50, char := none, event_type := KeyEventType.Make, modifiers := ⟨0⟩ }

/-- The session state after a make of left shift (keycode 50) from the fresh
state. -/
def exAfterShift : Ps2Keyboard :=
  { key_state_map := (List.replicate KEY_STATE_LENGTH 0).set 6 4, state := ⟨0⟩ }

theorem handle_state_key_state_map (kb : Ps2Keyboard) (km : Keymap) (ev : KeyEvent) :
    (kb.handle_state km ev).key_state_map = kb.key_state_map := by
  unfold Ps2Keyboard.handle_state
  split_ifs <;> rfl

theorem handle_state_pressed (kb : Ps2Keyboard) (km : Keymap) (ev : KeyEvent) (K : Nat) :
    (kb.handle_state km ev).pressed K = kb.pressed K := by
  unfold Ps2Keyboard.pressed
  rw [handle_state_key_state_map]

theorem pressed_eq_testBit (kb : Ps2Keyboard) (K : Nat) :
    kb.pressed K = Nat.testBit ((kb.key_state_map[K / 8]?).getD 0) (K % 8) := by
  unfold Ps2Keyboard.pressed Nat.testBit
  rw [Nat.land_comm]

theorem testBit_or_pow (b j i : Nat) :
    Nat.testBit (b ||| 1 <<< j) i = (Nat.testBit b i || decide (j = i)) := by
  rw [Nat.one_shiftLeft, Nat.testBit_lor, Nat.testBit_two_pow]

theorem testBit_and_mask (b j i : Nat) (hi : i < 8) :
    Nat.testBit (b &&& (255 ^^^ 1 <<< j)) i = (Nat.testBit b i && !decide (j = i)) := by
  rw [Nat.one_shiftLeft, Nat.testBit_land, Nat.testBit_xor]
  have h255 : Nat.testBit 255 i = true := by
    have h : (255 : Nat) = 2 ^ 8 - 1 := by norm_num
    rw [h, Nat.testBit_two_pow_sub_one]
    exact decide_eq_true hi
  rw [h255, Nat.testBit_two_pow]
  cases Nat.testBit b i <;> by_cases h : j = i <;> simp [h]

theorem create_event_eq_ok (kb : Ps2Keyboard) (km : Keymap) (sc : Scancode) (K : Nat)
    (h : keycode_try_from km sc = Except.ok K) :
    kb.create_event km sc = some
      { keycode := K,
        char := (km.get_us_qwerty_char K).char (ModifierFlags.from_modifiers
          (kb.pressed km.LEFT_SHIFT || kb.pressed km.RIGHT_SHIFT)
          (kb.state.contains StateFlags.NUM_LOCK)
          (kb.state.contains StateFlags.CAPS_LOCK)),
        event_type :=
          if sc.make then
            if kb.pressed K then KeyEventType.Repeat else KeyEventType.Make
          else KeyEventType.Break,
        modifiers := ModifierFlags.from_modifiers
          (kb.pressed km.LEFT_SHIFT || kb.pressed km.RIGHT_SHIFT)
          (kb.state.contains StateFlags.NUM_LOCK)
          (kb.state.contains StateFlags.CAPS_LOCK) } := by
  unfold Ps2Keyboard.create_event
  rw [h]

theorem create_event_eq_none (kb : Ps2Keyboard) (km : Keymap) (sc : Scancode)
    (e : UnknownScancode) (h : keycode_try_from km sc = Except.error e) :
    kb.create_event km sc = none := by
  unfold Ps2Keyboard.create_event
  rw [h]

theorem create_event_inv (kb : Ps2Keyboard) (km : Keymap) (sc : Scancode) (ev : KeyEvent)
    (h : kb.create_event km sc = some ev) :
    keycode_try_from km sc = Except.ok ev.keycode ∧
    ev.modifiers = ModifierFlags.from_modifiers
      (kb.pressed km.LEFT_SHIFT || kb.pressed km.RIGHT_SHIFT)
      (kb.state.contains StateFlags.NUM_LOCK)
      (kb.state.contains StateFlags.CAPS_LOCK) ∧
    ev.char = (km.get_us_qwerty_char ev.keycode).char ev.modifiers ∧
    ev.event_type =
      (if sc.make then
        if kb.pressed ev.keycode then KeyEventType.Repeat else KeyEventType.Make
      else KeyEventType.Break) := by
  cases ht : keycode_try_from km sc with
  | error e =>
      rw [create_event_eq_none kb km sc e ht] at h
      exact absurd h (by simp)
  | ok K =>
      rw [create_event_eq_ok kb km sc K ht] at h
      injection h with h
      subst h
      exact ⟨rfl, rfl, rfl, rfl⟩

theorem pressed_set_bit (m : List Nat) (st : StateFlags) (kc : Nat) (mk : Bool)
    (hlen : kc / 8 < m.length) (K : Nat) :
    (Ps2Keyboard.mk
      (m.set (kc / 8)
        (if mk then (m[kc / 8]?).getD 0 ||| 1 <<< (kc % 8)
         else (m[kc / 8]?).getD 0 &&& (255 ^^^ 1 <<< (kc % 8))))
      st).pressed K =
    if K = kc then mk else (Ps2Keyboard.mk m st).pressed K := by
  rw [pressed_eq_testBit, pressed_eq_testBit]
  have hK8 : K % 8 < 8 := Nat.mod_lt _ (by norm_num)
  by_cases hbucket : K / 8 = kc / 8
  · rw [show ((Ps2Keyboard.mk (m.set (kc / 8) _) st).key_state_map) = m.set (kc / 8) _
        from rfl, hbucket, List.getElem?_set_self hlen, Option.getD_some]
    cases mk
    · rw [if_neg (by simp), testBit_and_mask _ _ _ hK8]
      by_cases hK : K = kc
      · subst hK
        simp
      · have hbit : ¬(kc % 8 = K % 8) := by omega
        rw [if_neg hK]
        simp [hbit, hbucket]
    · rw [if_pos rfl, testBit_or_pow]
      by_cases hK : K = kc
      · subst hK
        simp
      · have hbit : ¬(kc % 8 = K % 8) := by omega
        rw [if_neg hK]
        simp [hbit, hbucket]
  · have hK : K ≠ kc := fun h => hbucket (by rw [h])
    rw [show ((Ps2Keyboard.mk (m.set (kc / 8) _) st).key_state_map) = m.set (kc / 8) _
        from rfl, List.getElem?_set_ne (fun h => hbucket h.symm), if_neg hK]

theorem consume_ok (kb : Ps2Keyboard) (km : Keymap) (sc : Scancode) (ev : KeyEvent)
    (hev : kb.create_event km sc = some ev)
    (hlen : ev.keycode / 8 < kb.key_state_map.length) :
    ∃ kb1, kb.consume km sc = some (kb1, some ev, false) ∧
      kb1.state = (kb.handle_state km ev).state ∧
      kb1.key_state_map.length = kb.key_state_map.length ∧
      ∀ K, kb1.pressed K = if K = ev.keycode then sc.make else kb.pressed K := by
  have hmap : (kb.handle_state km ev).key_state_map = kb.key_state_map :=
    handle_state_key_state_map kb km ev
  unfold Ps2Keyboard.consume
  rw [hev]
  simp only [hmap, hlen, if_true]
  refine ⟨_, rfl, rfl, by simp, ?_⟩
  intro K
  have h := pressed_set_bit kb.key_state_map (kb.handle_state km ev).state ev.keycode
    sc.make hlen K
  cases hm : sc.make <;> rw [hm] at h <;>
    simpa [Ps2Keyboard.pressed] using h

theorem consume_of_unknown (kb : Ps2Keyboard) (km : Keymap) (sc : Scancode)
    (h : kb.create_event km sc = none) :
    kb.consume km sc = some (kb, none, true) := by
  unfold Ps2Keyboard.consume
  rw [h]

theorem consume_inv (kb : Ps2Keyboard) (km : Keymap) (sc : Scancode)
    (out : Ps2Keyboard × Option KeyEvent × Bool) (h : kb.consume km sc = some out) :
    (kb.create_event km sc = none ∧ out = (kb, none, true)) ∨
    (∃ ev, kb.create_event km sc = some ev ∧
      ev.keycode / 8 < kb.key_state_map.length ∧
      out.2.1 = some ev ∧ out.2.2 = false ∧
      out.1.state = (kb.handle_state km ev).state ∧
      out.1.key_state_map.length = kb.key_state_map.length ∧
      ∀ K, out.1.pressed K = if K = ev.keycode then sc.make else kb.pressed K) := by
  cases hev : kb.create_event km sc with
  | none =>
      left
      rw [consume_of_unknown kb km sc hev] at h
      injection h with h
      exact ⟨rfl, h.symm⟩
  | some ev =>
      right
      by_cases hlen : ev.keycode / 8 < kb.key_state_map.length
      · obtain ⟨kb1, hc, hs, hl, hp⟩ := consume_ok kb km sc ev hev hlen
        rw [hc] at h
        injection h with h
        subst h
        exact ⟨ev, rfl, hlen, rfl, rfl, hs, hl, hp⟩
      · exfalso
        unfold Ps2Keyboard.consume at h
        rw [hev] at h
        simp only [handle_state_key_state_map, hlen, if_false] at h
        exact absurd h (by simp)

theorem pressed_new (K : Nat) : Ps2Keyboard.new.pressed K = false := by
  rw [pressed_eq_testBit]
  have h : (Ps2Keyboard.new.key_state_map[K / 8]?).getD 0 = 0 := by
    show ((List.replicate KEY_STATE_LENGTH 0)[K / 8]?).getD 0 = 0
    rw [List.getElem?_replicate]
    split <;> rfl
  rw [h, Nat.zero_testBit]

theorem runSeq_length (km : Keymap) :
    ∀ (scs : List Scancode) (kb kb2 : Ps2Keyboard),
      kb.runSeq km scs = some kb2 → kb2.key_state_map.length = kb.key_state_map.length := by
  intro scs
  induction scs with
  | nil =>
      intro kb kb2 h
      injection h with h
      rw [← h]
  | cons sc rest ih =>
      intro kb kb2 h
      unfold Ps2Keyboard.runSeq at h
      cases hstep : kb.consume km sc with
      | none =>
          rw [hstep] at h
          exact absurd h (by simp)
      | some out =>
          obtain ⟨kb1, e, d⟩ := out
          rw [hstep] at h
          have h1 := ih kb1 kb2 h
          rcases consume_inv kb km sc (kb1, e, d) hstep with ⟨_, hout⟩ | ⟨ev, _, _, _, _, _, hl, _⟩
          · injection hout with hkb hrest
            rw [h1, hkb]
          · rw [h1]
            exact hl

theorem consume_pressed (kb : Ps2Keyboard) (km : Keymap) (sc : Scancode)
    (out : Ps2Keyboard × Option KeyEvent × Bool) (h : kb.consume km sc = some out) (K : Nat) :
    out.1.pressed K =
      if keycode_try_from km sc = Except.ok K then sc.make else kb.pressed K := by
  rcases consume_inv kb km sc out h with ⟨hnone, hout⟩ | ⟨ev, hev, _, _, _, _, _, hp⟩
  · subst hout
    cases ht : keycode_try_from km sc with
    | ok K2 =>
        rw [create_event_eq_ok kb km sc K2 ht] at hnone
        exact absurd hnone (by simp)
    | error e =>
        rw [if_neg (by simp)]
  · have hcode := (create_event_inv kb km sc ev hev).1
    rw [hp K]
    by_cases hc : K = ev.keycode
    · rw [if_pos hc, if_pos (by rw [hcode, hc])]
    · rw [if_neg hc, if_neg (fun hh => hc (by
        rw [hcode] at hh
        injection hh with hh
        exact hh.symm))]

theorem lastMake_cons (km : Keymap) (K : Nat) (sc : Scancode) (rest : List Scancode) :
    lastMake km K (sc :: rest) =
      match lastMake km K rest with
      | some b => some b
      | none => if keycode_try_from km sc = Except.ok K then some sc.make else none := rfl

theorem runSeq_pressed (km : Keymap) :
    ∀ (scs : List Scancode) (kb kb2 : Ps2Keyboard), kb.runSeq km scs = some kb2 →
      ∀ K, kb2.pressed K =
        (match lastMake km K scs with
         | some b => b
         | none => kb.pressed K) := by
  intro scs
  induction scs with
  | nil =>
      intro kb kb2 h K
      injection h with h
      rw [← h]
      rfl
  | cons sc rest ih =>
      intro kb kb2 h K
      unfold Ps2Keyboard.runSeq at h
      cases hstep : kb.consume km sc with
      | none =>
          rw [hstep] at h
          exact absurd h (by simp)
      | some out =>
          obtain ⟨kb1, e, d⟩ := out
          rw [hstep] at h
          have h1 := ih kb1 kb2 h K
          have h2 : kb1.pressed K =
              if keycode_try_from km sc = Except.ok K then sc.make else kb.pressed K :=
            consume_pressed kb km sc (kb1, e, d) hstep K
          rw [h1, lastMake_cons]
          cases hl : lastMake km K rest with
          | some b => rfl
          | none =>
              by_cases ht : keycode_try_from km sc = Except.ok K
              · rw [if_pos ht]
                show kb1.pressed K = sc.make
                rw [h2, if_pos ht]
              · rw [if_neg ht]
                show kb1.pressed K = kb.pressed K
                rw [h2, if_neg ht]

theorem land_pow_beq_testBit (n i : Nat) : (n &&& 2 ^ i == 2 ^ i) = n.testBit i := by
  cases h : n.testBit i with
  | false =>
      have h0 : n &&& 2 ^ i = 0 := by
        apply Nat.eq_of_testBit_eq
        intro j
        rw [Nat.testBit_land, Nat.testBit_two_pow, Nat.zero_testBit]
        by_cases hj : i = j
        · subst hj
          simp [h]
        · simp [hj]
      rw [h0]
      exact beq_eq_false_iff_ne.mpr (Nat.two_pow_pos i).ne
  | true =>
      have h1 : n &&& 2 ^ i = 2 ^ i := by
        apply Nat.eq_of_testBit_eq
        intro j
        rw [Nat.testBit_land, Nat.testBit_two_pow]
        by_cases hj : i = j
        · subst hj
          simp [h]
        · simp [hj]
      rw [h1]
      simp

theorem contains_toggle_self (s c : StateFlags) (k : Nat) (hc : c.bits = 2 ^ k) :
    (s.toggle c).contains c = !s.contains c := by
  unfold StateFlags.toggle StateFlags.contains
  simp only [hc]
  rw [land_pow_beq_testBit, land_pow_beq_testBit, Nat.testBit_xor,
    Nat.testBit_two_pow]
  simp

theorem toggle_toggle (s c : StateFlags) : (s.toggle c).toggle c = s := by
  unfold StateFlags.toggle
  rw [Nat.xor_cancel_right]

theorem from_modifiers_contains (shift num_lock caps_lock : Bool) :
    ((ModifierFlags.from_modifiers shift num_lock caps_lock).contains
        ModifierFlags.SHIFT = shift) ∧
    ((ModifierFlags.from_modifiers shift num_lock caps_lock).contains
        ModifierFlags.NUM_LOCK = num_lock) ∧
    ((ModifierFlags.from_modifiers shift num_lock caps_lock).contains
        ModifierFlags.CAPS_LOCK = caps_lock) := by
  cases shift <;> cases num_lock <;> cases caps_lock <;> exact ⟨rfl, rfl, rfl⟩

/-- C3: for every modifier snapshot, character resolution follows the mapping
tag exactly: no mapping yields no character; a constant mapping yields its
character unconditionally; `Shifted base alt` yields `alt` iff shift is
active; `Capitalized base alt` yields `alt` exactly when caps-lock xor shift
is true (caps plus shift cancels back to `base`); `NumLocked c` yields `c`
only when numlock is inactive and nothing when it is active. -/
theorem c3_char_resolution_follows_tag (shift num_lock caps_lock : Bool)
    (base alt c : Char) :
    (KeyCharMapping.Empty.char
        (ModifierFlags.from_modifiers shift num_lock caps_lock) = none) ∧
    ((KeyCharMapping.Single c).char
        (ModifierFlags.from_modifiers shift num_lock caps_lock) = some c) ∧
    ((KeyCharMapping.Shifted base alt).char
        (ModifierFlags.from_modifiers shift num_lock caps_lock) =
      some (if shift then alt else base)) ∧
    ((KeyCharMapping.Capitalized base alt).char
        (ModifierFlags.from_modifiers shift num_lock caps_lock) =
      some (if xor caps_lock shift then alt else base)) ∧
    ((KeyCharMapping.NumLocked c).char
        (ModifierFlags.from_modifiers shift num_lock caps_lock) =
      if num_lock then none else some c) := by
  cases shift <;> cases num_lock <;> cases caps_lock <;>
    exact ⟨rfl, rfl, rfl, rfl, rfl⟩

/-- C5: a scancode whose translation fails produces no event, leaves the
session state (pressed-key map and StateFlags) exactly unchanged, signals
the port dirty (`true`), and the step itself is no error and no panic. -/
theorem c5_unknown_scancode_containment (km : Keymap) (kb : Ps2Keyboard)
    (sc : Scancode) (e : UnknownScancode)
    (h : keycode_try_from km sc = Except.error e) :
    kb.consume km sc = some (kb, none, true) :=
  consume_of_unknown kb km sc (create_event_eq_none kb km sc e h)

/-- C5 witness at a concrete input: byte 0x00 is absent from `exKeymap`'s
plain table, so consuming it from the fresh session returns the unchanged
state, no event, and the dirty signal. -/
theorem c5_containment_witness :
    Ps2Keyboard.new.consume exKeymap ⟨0, false, true⟩ =
      some (Ps2Keyboard.new, none, true) :=
  c5_unknown_scancode_containment exKeymap Ps2Keyboard.new ⟨0, false, true⟩
    (UnknownScancode.UnknownPlainScancode 0) (by decide)

/-- C7: keycode translation returns the keycode the selected table maps the
byte to, and a byte absent from the selected table fails with the
unknown-code variant for that scancode space, carrying the raw byte. -/
theorem c7_translation_outcome (km : Keymap) (sc : Scancode) :
    (∀ k, sc.extended = false → km.get_code_ps2_set_2 sc.code = some k →
        keycode_try_from km sc = Except.ok k) ∧
    (∀ k, sc.extended = true → km.get_extended_code_ps2_set_2 sc.code = some k →
        keycode_try_from km sc = Except.ok k) ∧
    (sc.extended = false → km.get_code_ps2_set_2 sc.code = none →
        keycode_try_from km sc =
          Except.error (UnknownScancode.UnknownPlainScancode sc.code)) ∧
    (sc.extended = true → km.get_extended_code_ps2_set_2 sc.code = none →
        keycode_try_from km sc =
          Except.error (UnknownScancode.UnknownExtendedScancode sc.code)) := by
  refine ⟨?_, ?_, ?_, ?_⟩
  · intro k hext hget
    unfold keycode_try_from
    rw [hext]
    simp [hget]
  · intro k hext hget
    unfold keycode_try_from
    rw [hext]
    simp [hget]
  · intro hext hget
    unfold keycode_try_from
    rw [hext]
    simp [hget]
  · intro hext hget
    unfold keycode_try_from
    rw [hext]
    simp [hget]

/-- C7 witness at concrete inputs: plain byte 0x15 translates to keycode 20,
and plain byte 0x00 fails with the unknown-plain variant carrying 0x00. -/
theorem c7_translation_witness :
    keycode_try_from exKeymap ⟨0x15, false, true⟩ = Except.ok 20 ∧
    keycode_try_from exKeymap ⟨0, false, true⟩ =
      Except.error (UnknownScancode.UnknownPlainScancode 0) :=
  ⟨(c7_translation_outcome exKeymap ⟨0x15, false, true⟩).1 20 rfl (by decide),
   (c7_translation_outcome exKeymap ⟨0, false, true⟩).2.2.1 rfl (by decide)⟩

/-- C8: the modifier snapshot carried by every created event is recomputed
from the state at the time of the call: its shift bit is exactly
`pressed LEFT_SHIFT || pressed RIGHT_SHIFT`, and its numlock and capslock
bits equal the corresponding current StateFlags bits. -/
theorem c8_modifier_snapshot_fresh (km : Keymap) (kb : Ps2Keyboard) (sc : Scancode)
    (ev : KeyEvent) (h : kb.create_event km sc = some ev) :
    ev.modifiers = ModifierFlags.from_modifiers
      (kb.pressed km.LEFT_SHIFT || kb.pressed km.RIGHT_SHIFT)
      (kb.state.contains StateFlags.NUM_LOCK)
      (kb.state.contains StateFlags.CAPS_LOCK) ∧
    ev.modifiers.contains ModifierFlags.SHIFT =
      (kb.pressed km.LEFT_SHIFT || kb.pressed km.RIGHT_SHIFT) ∧
    ev.modifiers.contains ModifierFlags.NUM_LOCK =
      kb.state.contains StateFlags.NUM_LOCK ∧
    ev.modifiers.contains ModifierFlags.CAPS_LOCK =
      kb.state.contains StateFlags.CAPS_LOCK := by
  have hm := (create_event_inv kb km sc ev h).2.1
  have hc := from_modifiers_contains
    (kb.pressed km.LEFT_SHIFT || kb.pressed km.RIGHT_SHIFT)
    (kb.state.contains StateFlags.NUM_LOCK)
    (kb.state.contains StateFlags.CAPS_LOCK)
  exact ⟨hm, by rw [hm]; exact hc.1, by rw [hm]; exact hc.2.1, by rw [hm]; exact hc.2.2⟩

/-- C8 witness at a concrete input: the Q make event from the fresh state
carries modifiers equal to the freshly recomputed snapshot. -/
theorem c8_modifiers_witness :
    exQEvent.modifiers = ModifierFlags.from_modifiers
      (Ps2Keyboard.new.pressed exKeymap.LEFT_SHIFT ||
        Ps2Keyboard.new.pressed exKeymap.RIGHT_SHIFT)
      (Ps2Keyboard.new.state.contains StateFlags.NUM_LOCK)
      (Ps2Keyboard.new.state.contains StateFlags.CAPS_LOCK) :=
  (c8_modifier_snapshot_fresh exKeymap Ps2Keyboard.new ⟨0x15, false, true⟩ exQEvent
    (by decide)).1

/-- C6: StateFlags bits change only through qualifying Make events. A
consumed scancode that yields no event, or a Break or Repeat event, leaves
StateFlags unchanged; a Make event for the scroll-lock, num-lock, or
caps-lock keycode toggles exactly the corresponding flag (the inequality
side conditions mirror the source's match-arm order); a Make event for
Escape toggles function-lock exactly when Function is currently pressed;
any other keycode leaves StateFlags unchanged; toggling is an involution,
so a second qualifying Make flips the flag back. -/
theorem c6_lock_flag_toggles (km : Keymap) (kb kb1 : Ps2Keyboard) (sc : Scancode)
    (evOpt : Option KeyEvent) (d : Bool) (h : kb.consume km sc = some (kb1, evOpt, d)) :
    (evOpt = none → kb1.state = kb.state) ∧
    (∀ ev, evOpt = some ev →
      (ev.event_type ≠ KeyEventType.Make → kb1.state = kb.state) ∧
      (ev.event_type = KeyEventType.Make →
        (ev.keycode = km.SCROLL_LOCK →
          kb1.state = kb.state.toggle StateFlags.SCROLL_LOCK) ∧
        (ev.keycode = km.NUM_LOCK → km.NUM_LOCK ≠ km.SCROLL_LOCK →
          kb1.state = kb.state.toggle StateFlags.NUM_LOCK) ∧
        (ev.keycode = km.CAPS_LOCK → km.CAPS_LOCK ≠ km.SCROLL_LOCK →
          km.CAPS_LOCK ≠ km.NUM_LOCK →
          kb1.state = kb.state.toggle StateFlags.CAPS_LOCK) ∧
        (ev.keycode = km.ESCAPE → km.ESCAPE ≠ km.SCROLL_LOCK →
          km.ESCAPE ≠ km.NUM_LOCK → km.ESCAPE ≠ km.CAPS_LOCK →
          kb1.state = (if kb.pressed km.FUNCTION then
            kb.state.toggle StateFlags.FUNCTION_LOCK else kb.state)) ∧
        (ev.keycode ≠ km.SCROLL_LOCK → ev.keycode ≠ km.NUM_LOCK →
          ev.keycode ≠ km.CAPS_LOCK → ev.keycode ≠ km.ESCAPE →
          kb1.state = kb.state))) ∧
    ((kb.state.toggle StateFlags.CAPS_LOCK).toggle StateFlags.CAPS_LOCK = kb.state) := by
  refine ⟨?_, ?_, toggle_toggle kb.state StateFlags.CAPS_LOCK⟩ <;>
    rcases consume_inv kb km sc (kb1, evOpt, d) h with ⟨_, hout⟩ | ⟨ev0, _, _, hsome, _, hs, _, _⟩
  · intro _
    injection hout with h1 h2
    rw [h1]
  · intro hnone
    rw [hnone] at hsome
    exact absurd hsome (by simp)
  · intro ev hev
    injection hout with h1 h2
    injection h2 with h2 h3
    rw [hev] at h2
    exact absurd h2.symm (by simp)
  · intro ev hev
    rw [hev] at hsome
    injection hsome with hsome
    subst hsome
    constructor
    · intro hnotmake
      rw [hs]
      unfold Ps2Keyboard.handle_state
      rw [if_neg hnotmake]
    · intro hmake
      refine ⟨?_, ?_, ?_, ?_, ?_⟩
      · intro hkc
        rw [hs]
        unfold Ps2Keyboard.handle_state
        rw [if_pos hmake, if_pos hkc]
      · intro hkc hne1
        rw [hs]
        unfold Ps2Keyboard.handle_state
        rw [if_pos hmake, if_neg (by rw [hkc]; exact hne1), if_pos hkc]
      · intro hkc hne1 hne2
        rw [hs]
        unfold Ps2Keyboard.handle_state
        rw [if_pos hmake, if_neg (by rw [hkc]; exact hne1),
          if_neg (by rw [hkc]; exact hne2), if_pos hkc]
      · intro hkc hne1 hne2 hne3
        rw [hs]
        unfold Ps2Keyboard.handle_state
        rw [if_pos hmake, if_neg (by rw [hkc]; exact hne1),
          if_neg (by rw [hkc]; exact hne2), if_neg (by rw [hkc]; exact hne3)]
        by_cases hf : kb.pressed km.FUNCTION
        · rw [if_pos ⟨hkc, hf⟩, if_pos hf]
        · rw [if_neg (fun hand => hf hand.2), if_neg hf]
      · intro hne1 hne2 hne3 hne4
        rw [hs]
        unfold Ps2Keyboard.handle_state
        rw [if_pos hmake, if_neg hne1, if_neg hne2, if_neg hne3,
          if_neg (fun hand => hne4 hand.1)]

/-- C6 witness at a concrete input: a caps-lock make from the fresh session
toggles exactly the caps-lock StateFlags bit. -/
theorem c6_toggle_witness :
    exAfterCaps.state = Ps2Keyboard.new.state.toggle StateFlags.CAPS_LOCK := by
  have h := c6_lock_flag_toggles exKeymap Ps2Keyboard.new exAfterCaps
    ⟨0x58, false, true⟩ (some exCapsEvent) false (by decide)
  exact ((h.2.1 exCapsEvent rfl).2 (by decide)).2.2.1 (by decide) (by decide) (by decide)

/-- C9: the modifier snapshot and resolved character embedded in every
emitted event are computed from the session state before that scancode's
own side effects: the emitted event equals the one `create_event` builds
from the pre-state; in particular a Make of LEFT_SHIFT itself carries the
SHIFT bit inactive when no shift key was pressed before (while the bit is
set in the post-state), and a Make of the caps-lock keycode carries the
pre-toggle caps-lock bit while the post-state holds the toggled one. -/
theorem c9_event_uses_pre_state (km : Keymap) (kb kb1 : Ps2Keyboard) (sc : Scancode)
    (ev : KeyEvent) (d : Bool) (h : kb.consume km sc = some (kb1, some ev, d)) :
    kb.create_event km sc = some ev ∧
    ev.modifiers = ModifierFlags.from_modifiers
      (kb.pressed km.LEFT_SHIFT || kb.pressed km.RIGHT_SHIFT)
      (kb.state.contains StateFlags.NUM_LOCK)
      (kb.state.contains StateFlags.CAPS_LOCK) ∧
    ev.char = (km.get_us_qwerty_char ev.keycode).char ev.modifiers ∧
    (sc.make = true → ev.keycode = km.LEFT_SHIFT →
      kb.pressed km.LEFT_SHIFT = false → kb.pressed km.RIGHT_SHIFT = false →
      ev.modifiers.contains ModifierFlags.SHIFT = false ∧
      kb1.pressed km.LEFT_SHIFT = true) ∧
    (ev.event_type = KeyEventType.Make → ev.keycode = km.CAPS_LOCK →
      km.CAPS_LOCK ≠ km.SCROLL_LOCK → km.CAPS_LOCK ≠ km.NUM_LOCK →
      ev.modifiers.contains ModifierFlags.CAPS_LOCK =
        kb.state.contains StateFlags.CAPS_LOCK ∧
      kb1.caps_lock = !kb.caps_lock) := by
  rcases consume_inv kb km sc (kb1, some ev, d) h with ⟨_, hout⟩ | ⟨ev0, hev, _, hsome, _, hs, _, hp⟩
  · injection hout with h1 h2
    injection h2 with h2 h3
    exact absurd h2 (by simp)
  · injection hsome with hsome
    subst hsome
    obtain ⟨hcode, hm, hchar, htype⟩ := create_event_inv kb km sc ev hev
    have hcont := from_modifiers_contains
      (kb.pressed km.LEFT_SHIFT || kb.pressed km.RIGHT_SHIFT)
      (kb.state.contains StateFlags.NUM_LOCK)
      (kb.state.contains StateFlags.CAPS_LOCK)
    refine ⟨hev, hm, hchar, ?_, ?_⟩
    · intro hmk hkc hls hrs
      constructor
      · rw [hm, hcont.1, hls, hrs]
        rfl
      · have := hp km.LEFT_SHIFT
        rw [this, ← hkc, if_pos rfl, hmk]
    · intro hmake hkc hne1 hne2
      constructor
      · rw [hm, hcont.2.2]
      · unfold Ps2Keyboard.caps_lock
        rw [hs]
        unfold Ps2Keyboard.handle_state
        rw [if_pos hmake, if_neg (by rw [hkc]; exact hne1),
          if_neg (by rw [hkc]; exact hne2), if_pos hkc]
        exact contains_toggle_self kb.state StateFlags.CAPS_LOCK 2 rfl

/-- C9 witness at a concrete input: the left-shift make event from the fresh
session carries SHIFT inactive while the post-state has the key pressed. -/
theorem c9_pre_state_witness :
    exShiftEvent.modifiers.contains ModifierFlags.SHIFT = false ∧
    exAfterShift.pressed exKeymap.LEFT_SHIFT = true := by
  have h := c9_event_uses_pre_state exKeymap Ps2Keyboard.new exAfterShift
    ⟨0x12, false, true⟩ exShiftEvent false (by decide)
  exact h.2.2.2.1 rfl (by decide) (by decide) (by decide)

/-- C1: event classification. A consumed make scancode is classified Repeat
exactly when the keycode's pressed bit was already set when it arrived, Make
when the bit was clear, and a break scancode is classified Break regardless
of the prior bit; consequently feeding make, make, break for a keycode K
(with its bit initially clear and inside the key-state map) yields the event
types Make, Repeat, Break. -/
theorem c1_make_repeat_break_classification (km : Keymap) (kb : Ps2Keyboard) :
    (∀ sc ev, kb.create_event km sc = some ev →
      (sc.make = true → kb.pressed ev.keycode = true →
        ev.event_type = KeyEventType.Repeat) ∧
      (sc.make = true → kb.pressed ev.keycode = false →
        ev.event_type = KeyEventType.Make) ∧
      (sc.make = false → ev.event_type = KeyEventType.Break)) ∧
    (∀ K scM scB, keycode_try_from km scM = Except.ok K → scM.make = true →
      keycode_try_from km scB = Except.ok K → scB.make = false →
      kb.pressed K = false → K / 8 < kb.key_state_map.length →
      ∃ kb1 ev1 kb2 ev2 kb3 ev3,
        kb.consume km scM = some (kb1, some ev1, false) ∧
        kb1.consume km scM = some (kb2, some ev2, false) ∧
        kb2.consume km scB = some (kb3, some ev3, false) ∧
        ev1.event_type = KeyEventType.Make ∧
        ev2.event_type = KeyEventType.Repeat ∧
        ev3.event_type = KeyEventType.Break) := by
  constructor
  · intro sc ev hev
    have htype := (create_event_inv kb km sc ev hev).2.2.2
    refine ⟨?_, ?_, ?_⟩
    · intro hmk hpress
      rw [htype]
      simp [hmk, hpress]
    · intro hmk hpress
      rw [htype]
      simp [hmk, hpress]
    · intro hmk
      rw [htype]
      simp [hmk]
  · intro K scM scB hM hMmk hB hBmk hP hlen
    have hev1 := create_event_eq_ok kb km scM K hM
    obtain ⟨kb1, hc1, hs1, hl1, hp1⟩ := consume_ok kb km scM _ hev1 hlen
    have hp1K : kb1.pressed K = true := by
      have hthis := hp1 K
      rw [if_pos rfl, hMmk] at hthis
      exact hthis
    have hev2 := create_event_eq_ok kb1 km scM K hM
    have hlen2 : K / 8 < kb1.key_state_map.length := by
      rw [hl1]
      exact hlen
    obtain ⟨kb2, hc2, hs2, hl2, hp2⟩ := consume_ok kb1 km scM _ hev2 hlen2
    have hev3 := create_event_eq_ok kb2 km scB K hB
    have hlen3 : K / 8 < kb2.key_state_map.length := by
      rw [hl2, hl1]
      exact hlen
    obtain ⟨kb3, hc3, hs3, hl3, hp3⟩ := consume_ok kb2 km scB _ hev3 hlen3
    refine ⟨kb1, _, kb2, _, kb3, _, hc1, hc2, hc3, ?_, ?_, ?_⟩
    · show (if scM.make = true then
          if kb.pressed K = true then KeyEventType.Repeat else KeyEventType.Make
        else KeyEventType.Break) = KeyEventType.Make
      simp [hMmk, hP]
    · show (if scM.make = true then
          if kb1.pressed K = true then KeyEventType.Repeat else KeyEventType.Make
        else KeyEventType.Break) = KeyEventType.Repeat
      simp [hMmk, hp1K]
    · show (if scB.make = true then
          if kb2.pressed K = true then KeyEventType.Repeat else KeyEventType.Make
        else KeyEventType.Break) = KeyEventType.Break
      simp [hBmk]

/-- C1 witness at a concrete input: make Q, make Q, break Q from the fresh
session with `exKeymap` yield the event types Make, Repeat, Break. -/
theorem c1_round_trip_witness :
    ∃ kb1 ev1 kb2 ev2 kb3 ev3,
      Ps2Keyboard.new.consume exKeymap ⟨0x15, false, true⟩ =
        some (kb1, some ev1, false) ∧
      kb1.consume exKeymap ⟨0x15, false, true⟩ = some (kb2, some ev2, false) ∧
      kb2.consume exKeymap ⟨0x15, false, false⟩ = some (kb3, some ev3, false) ∧
      ev1.event_type = KeyEventType.Make ∧
      ev2.event_type = KeyEventType.Repeat ∧
      ev3.event_type = KeyEventType.Break :=
  (c1_make_repeat_break_classification exKeymap Ps2Keyboard.new).2 20
    ⟨0x15, false, true⟩ ⟨0x15, false, false⟩ (by decide) rfl (by decide) rfl
    (by decide) (by decide)

/-- C2: after any finite sequence of scancodes consumed without a panic from
the fresh session, `pressed K` is true exactly when the most recent scancode
translating to K (if any) was a make. -/
theorem c2_pressed_state_consistency (km : Keymap) (scs : List Scancode)
    (kb2 : Ps2Keyboard) (h : Ps2Keyboard.new.runSeq km scs = some kb2) (K : Nat) :
    (kb2.pressed K = true ↔ lastMake km K scs = some true) := by
  have hp := runSeq_pressed km scs Ps2Keyboard.new kb2 h K
  cases hl : lastMake km K scs with
  | none =>
      rw [hl] at hp
      have hp2 : kb2.pressed K = Ps2Keyboard.new.pressed K := hp
      rw [hp2, pressed_new]
      simp
  | some b =>
      rw [hl] at hp
      have hp2 : kb2.pressed K = b := hp
      rw [hp2]
      cases b <;> simp

/-- C2 witness at a concrete input: after consuming a single make of Q from
the fresh session, `pressed 20` is true. -/
theorem c2_pressed_witness : exAfterQ.pressed 20 = true :=
  (c2_pressed_state_consistency exKeymap [⟨0x15, false, true⟩] exAfterQ
    (by decide) 20).mpr (by decide)

/-- C10: the backing array holds 0xFF / 8 = 31 bytes (248 bits), and in every
session state reachable from the fresh state by non-panicking consume steps,
`pressed K` is false for every keycode 248–254: the read falls outside the
array and returns the zero default, and no non-panicking step can set such a
bit. -/
theorem c10_high_keycodes_never_pressed (km : Keymap) (scs : List Scancode)
    (kb2 : Ps2Keyboard) (h : Ps2Keyboard.new.runSeq km scs = some kb2) (K : Nat)
    (h1 : 248 ≤ K) (h2 : K ≤ 254) :
    KEY_STATE_LENGTH = 31 ∧ kb2.pressed K = false := by
  refine ⟨rfl, ?_⟩
  have hlen : kb2.key_state_map.length = 31 := by
    rw [runSeq_length km scs Ps2Keyboard.new kb2 h]
    simp [Ps2Keyboard.new, KEY_STATE_LENGTH]
  rw [pressed_eq_testBit, List.getElem?_eq_none (by rw [hlen]; omega)]
  simp

/-- C10 witness at a concrete input: in the fresh session state (reached by
the empty sequence), keycode 250 is not pressed. -/
theorem c10_witness : KEY_STATE_LENGTH = 31 ∧ Ps2Keyboard.new.pressed 250 = false :=
  c10_high_keycodes_never_pressed exKeymap [] Ps2Keyboard.new rfl 250
    (by decide) (by decide)

/-- C4 counterexample: the pressed-key array holds 0xFF / 8 = 31 bytes, i.e.
248 bits, not one bit for each keycode 0–254 (255 bits); and a consume step
whose scancode translates to keycode 248 — inside the 0–254 keycode space the
design document declares in use — panics on the pressed-bit write, so not
every pressed-key state access with a keycode in 0–254 is safe. -/
theorem c4_state_size_counterexample :
    KEY_STATE_LENGTH = 31 ∧ 8 * KEY_STATE_LENGTH = 248 ∧
    Ps2Keyboard.new.consume wideKeymap ⟨0, false, true⟩ = none :=
  ⟨rfl, rfl, by decide⟩

/-- C4 amended: the pressed-key bitset holds 8 × 31 = 248 bits (keycodes
0–247). Pressed-state reads are safe for every keycode, including
out-of-range ones, returning the "not pressed" default; a consume step never
panics when the translated keycode is at most 247; and a translation failure
never panics. -/
theorem c4_amended_state_access (km : Keymap) (kb : Ps2Keyboard) :
    (∀ K, 8 * kb.key_state_map.length ≤ K → kb.pressed K = false) ∧
    (∀ sc ev, kb.create_event km sc = some ev → ev.keycode ≤ 247 →
      kb.key_state_map.length = KEY_STATE_LENGTH → (kb.consume km sc).isSome) ∧
    (∀ sc, kb.create_event km sc = none → (kb.consume km sc).isSome) := by
  refine ⟨?_, ?_, ?_⟩
  · intro K hK
    rw [pressed_eq_testBit, List.getElem?_eq_none (by omega)]
    simp
  · intro sc ev hev hk hlen
    have hlt : ev.keycode / 8 < kb.key_state_map.length := by
      rw [hlen]
      show ev.keycode / 8 < 31
      omega
    obtain ⟨kb1, hc, _, _, _⟩ := consume_ok kb km sc ev hev hlt
    rw [hc]
    rfl
  · intro sc hev
    rw [consume_of_unknown kb km sc hev]
    rfl

/-- C4 amended witness at concrete inputs: an out-of-range read (keycode 300)
returns not-pressed, and consuming the Q make (keycode 20 ≤ 247) does not
panic. -/
theorem c4_amended_witness :
    Ps2Keyboard.new.pressed 300 = false ∧
    (Ps2Keyboard.new.consume exKeymap ⟨0x15, false, true⟩).isSome = true :=
  ⟨(c4_amended_state_access exKeymap Ps2Keyboard.new).1 300 (by decide),
   (c4_amended_state_access exKeymap Ps2Keyboard.new).2.1 ⟨0x15, false, true⟩
     exQEvent (by decide) (by decide) (by decide)⟩

end Flower
